import Mathlib

/-!
Shallow embedding of the identifier-reconciliation engine (`src/match_ids.py`)
and the relationship-graph builder (`src/lib/graph.py`) of the xarxa
repository, together with the database-backed lookup functions they call
(`src/lib/table_string_interactions.py`, `src/lib/table_kegg_relations.py`,
`src/lib/table_id_mapper.py`, `src/lib/table_experimental_condition.py`).

Python dictionaries are modelled as insertion-ordered association lists,
Python sets as insertion-ordered duplicate-free lists, Python `None` as
`Option.none`, and Python floats as `Rat` (only truthiness and magnitude
comparisons are performed on them).  Raised exceptions are modelled with
`Except`.
-/

deriving instance DecidableEq for Except

namespace Xarxa

/-- Python truthiness of an optional string: `None` and `""` are falsy. -/
def isTruthy : Option String → Bool
  | none => false
  | some s => s ≠ ""

/-- Does the character list `l` start with the character list `p`? -/
def startsWithChars : List Char → List Char → Bool
  | [], _ => true
  | _ :: _, [] => false
  | c :: cs, d :: ds => c = d && startsWithChars cs ds

/-- Does some suffix of `l` start with `p`?  (Substring containment on
character lists.) -/
def containsChars (p : List Char) : List Char → Bool
  | [] => p.isEmpty
  | c :: ds => startsWithChars p (c :: ds) || containsChars p ds

/-- Python `a in b` on strings: substring containment. -/
def pySubstr (a b : String) : Bool := containsChars a.data b.data

/-- Python `s.split(c)` for a single-character separator (the only kind the
source uses: `"."` and `":"`), on character lists. -/
def splitChars (c : Char) : List Char → List (List Char)
  | [] => [[]]
  | d :: ds =>
      let rest := splitChars c ds
      if d = c then [] :: rest
      else
        match rest with
        | [] => [[d]]
        | r :: rs => (d :: r) :: rs

/-- Python `s.split(c)[0]`: the text before the first separator. -/
def pySplitHead (s : String) (c : Char) : String :=
  String.mk ((splitChars c s.data).headD s.data)

/-- `dict.get(k)` on an insertion-ordered association list. -/
def dictGet {K V : Type} [DecidableEq K] (d : List (K × V)) (k : K) : Option V :=
  (d.find? (fun p => p.1 = k)).map (·.2)

/-- `k in dict`. -/
def dictContains {K V : Type} [DecidableEq K] (d : List (K × V)) (k : K) : Bool :=
  d.any (fun p => p.1 = k)

/-- `dict[k] = v`: update in place when the key exists (keeping its
position), append otherwise. -/
def dictInsert {K V : Type} [DecidableEq K] (d : List (K × V)) (k : K) (v : V) :
    List (K × V) :=
  if dictContains d k then d.map (fun p => if p.1 = k then (k, v) else p)
  else d ++ [(k, v)]

/-- `set.add(x)` on an insertion-ordered duplicate-free list. -/
def setAdd {α : Type} [DecidableEq α] (s : List α) (x : α) : List α :=
  if x ∈ s then s else s ++ [x]

/-- `Except.isOk` spelled out, to keep statements self-contained. -/
def exceptIsOk {ε α : Type} : Except ε α → Bool
  | .ok _ => true
  | .error _ => false

/-! ### `pair_lt_kegg` (src/match_ids.py, lines 258-286)

First pass: each locus tag, in list order, is paired with the first KEGG
accession (in list order) that contains it as a substring (`None` when no
accession matches).  Second pass: every KEGG accession not selected in the
first pass is appended as a `(None, accession)` pair. -/

def pair_lt_kegg (locus_tags kegg_accessions : List String) :
    List (Option String × Option String) :=
  let firstPass := locus_tags.map
    (fun lt => ((some lt : Option String), kegg_accessions.find? (fun kegg => pySubstr lt kegg)))
  let unpaired := kegg_accessions.filter
    (fun kegg => ¬ firstPass.any (fun pair => pair.2 = some kegg))
  firstPass ++ unpaired.map (fun kegg => ((none : Option String), some kegg))

/-! ### `get_string_targets` (src/lib/table_string_interactions.py, lines 282-322)

The STRING interaction table, queried in both column orders with a strict
`combined_score > threshold` filter. -/

structure StringRow where
  protein_a : String
  protein_b : String
  combined_score : Int
deriving DecidableEq, Repr

def get_string_targets (table : List StringRow) (refseq_locus_tag : String)
    (threshold : Int) : List String :=
  (table.filter
      (fun r => r.protein_a = refseq_locus_tag ∧ r.combined_score > threshold)).map
        (·.protein_b)
    ++ (table.filter
      (fun r => r.protein_b = refseq_locus_tag ∧ r.combined_score > threshold)).map
        (·.protein_a)

/-! ### Reconciliation engine data model (src/match_ids.py) -/

/-- `IdMasterRecord` (src/match_ids.py, lines 39-56). -/
structure IdMasterRecord where
  uniprot_accession : Option String := none
  refseq_locus_tag : Option String := none
  locus_tag : Option String := none
  kegg_accession : Option String := none
  refseq_protein_id : Option String := none
deriving DecidableEq, Repr

/-- `IdConflictError`, split by raise site for traceability. -/
inductive IdConflictError where
  | duplicateUniprot
  | duplicateRefseq
  | keggConflict
  | incomplete
deriving DecidableEq, Repr

/-- Values stored in `refseq_locus_tag_to_locus_tag`: the Python dict holds
`List[str]` values for RefSeq-locus-tag keys (line 320) and plain `str`
(or `None`) values for reverse locus-tag keys (line 323). -/
inductive LtVal where
  | strs (l : List String)
  | strv (s : Option String)
deriving DecidableEq, Repr

/-- Python iteration over an `LtVal`: a list yields its elements, a string
yields its characters as one-character strings.  (Iterating a stored `None`
would raise `TypeError` in Python; that path is not modelled.) -/
def LtVal.iterList : LtVal → List String
  | .strs l => l
  | .strv (some s) => s.data.map (fun c => String.mk [c])
  | .strv none => []

/-- The module-level mutable association structures of src/match_ids.py
(lines 66-95). -/
structure IdState where
  uniprot_to_refseq_protein_id : List (Option String × Option String) := []
  uniprot_to_locus_tag : List (Option String × List String) := []
  uniprot_to_kegg_accession : List (Option String × List String) := []
  refseq_locus_tag_to_refseq_protein_id : List (Option String × Option String) := []
  refseq_locus_tag_to_locus_tag : List (Option String × LtVal) := []
  locus_tag_to_kegg_accession : List (String × Option String) := []
  locus_tag_set : List String := []
  kegg_accession_set : List String := []
deriving DecidableEq, Repr

/-- One parsed UniProt input row (the `GenericRow` produced by `parse_tsv`
with the schema of `parse_uniprot`): list fields normalise missing values to
`[]`, string fields to `none`. -/
structure UniprotRow where
  uniprot_accession : Option String := none
  locus_tag : List String := []
  orf_name : List String := []
  kegg_accession : List String := []
  refseq_protein_id : Option String := none
deriving DecidableEq, Repr

/-- One parsed RefSeq input row. -/
structure RefseqRow where
  refseq_locus_tag : Option String := none
  locus_tag : List String := []
  refseq_protein_id : Option String := none
deriving DecidableEq, Repr

/-- One parsed KEGG input row. -/
structure KeggRow where
  kegg_accession : String
deriving DecidableEq, Repr

/-- `row.refseq_protein_id.split(".")[0] if row.refseq_protein_id else None`
(src/match_ids.py, lines 221 and 312): version stripping with Python
truthiness on the input. -/
def pidStrip (o : Option String) : Option String :=
  if isTruthy o then some (pySplitHead (o.getD "") '.') else none

/-- In-place row normalisation of `parse_uniprot` (src/match_ids.py, lines
211-221): ORF names become the locus-tag list when it is empty and are
appended (duplicate-free) otherwise; the protein id is version-stripped. -/
def normalizeUniprotRow (r : UniprotRow) : UniprotRow :=
  let lt0 := if r.locus_tag.isEmpty then r.orf_name else r.locus_tag
  let lt1 := r.orf_name.foldl (fun acc n => if n ∈ acc then acc else acc ++ [n]) lt0
  { r with locus_tag := lt1, refseq_protein_id := pidStrip r.refseq_protein_id }

/-- Record one `(locus tag, KEGG accession)` pair in the bidirectional map
(src/match_ids.py, lines 249-255). -/
def recordPair (st : IdState) (pair : Option String × Option String) : IdState :=
  let st :=
    match pair.1 with
    | some l =>
        if l ≠ "" then
          { st with
            locus_tag_to_kegg_accession := dictInsert st.locus_tag_to_kegg_accession l pair.2,
            locus_tag_set := setAdd st.locus_tag_set l }
        else st
    | none => st
  match pair.2 with
  | some kegg =>
      if kegg ≠ "" then
        { st with
          locus_tag_to_kegg_accession := dictInsert st.locus_tag_to_kegg_accession kegg pair.1,
          kegg_accession_set := setAdd st.kegg_accession_set kegg }
      else st
  | none => st

/-- Processing of one normalised UniProt row (src/match_ids.py, lines
224-255). -/
def parseUniprotRow (st : IdState) (row : UniprotRow) : Except IdConflictError IdState :=
  let ua := row.uniprot_accession
  let lts := row.locus_tag
  let kaccs := row.kegg_accession
  let rp := row.refseq_protein_id
  if dictContains st.uniprot_to_refseq_protein_id ua then
    .error .duplicateUniprot
  else
    let st :=
      { st with
        uniprot_to_refseq_protein_id := dictInsert st.uniprot_to_refseq_protein_id ua rp,
        uniprot_to_locus_tag := dictInsert st.uniprot_to_locus_tag ua lts,
        uniprot_to_kegg_accession := dictInsert st.uniprot_to_kegg_accession ua kaccs }
    .ok ((pair_lt_kegg lts kaccs).foldl recordPair st)

/-- `parse_uniprot` (src/match_ids.py, lines 188-255), over already-parsed
rows. -/
def parse_uniprot (rows : List UniprotRow) (st : IdState) :
    Except IdConflictError IdState :=
  (rows.map normalizeUniprotRow).foldlM parseUniprotRow st

/-- `parse_refseq` (src/match_ids.py, lines 289-324). -/
def parse_refseq (rows : List RefseqRow) (st : IdState) :
    Except IdConflictError IdState :=
  rows.foldlM (fun st row => do
    let rs := row.refseq_locus_tag
    let lts := row.locus_tag
    let rp := pidStrip row.refseq_protein_id
    if dictContains st.refseq_locus_tag_to_refseq_protein_id rs then
      throw .duplicateRefseq
    let st :=
      { st with
        refseq_locus_tag_to_refseq_protein_id :=
          dictInsert st.refseq_locus_tag_to_refseq_protein_id rs rp,
        refseq_locus_tag_to_locus_tag :=
          dictInsert st.refseq_locus_tag_to_locus_tag rs (.strs lts) }
    pure (lts.foldl (fun st lt =>
      { st with
        refseq_locus_tag_to_locus_tag :=
          dictInsert st.refseq_locus_tag_to_locus_tag (some lt) (.strv rs),
        locus_tag_set := setAdd st.locus_tag_set lt }) st)) st

/-- `kegg_accession.split(":")[1]` (src/match_ids.py, line 345).  (On an
accession without a colon Python would raise `IndexError`; that path is not
modelled.) -/
def keggLocusTag (s : String) : String :=
  String.mk ((splitChars ':' s.data).getD 1 [])

/-- The first conflict check of one KEGG row (src/match_ids.py, lines
347-353): the accession side of the bidirectional map. -/
def parseKeggRowAcc (st : IdState) (kegg lt : String) :
    Except IdConflictError IdState :=
  if dictContains st.locus_tag_to_kegg_accession kegg then
    if (dictGet st.locus_tag_to_kegg_accession kegg).join ≠ some lt then
      .error .keggConflict
    else
      .ok { st with
        locus_tag_to_kegg_accession :=
          dictInsert st.locus_tag_to_kegg_accession kegg (some lt),
        locus_tag_set := setAdd st.locus_tag_set lt }
  else .ok st

/-- The second conflict check of one KEGG row (src/match_ids.py, lines
355-361): the locus-tag side of the bidirectional map. -/
def parseKeggRowLt (st : IdState) (kegg lt : String) :
    Except IdConflictError IdState :=
  if dictContains st.locus_tag_to_kegg_accession lt then
    if (dictGet st.locus_tag_to_kegg_accession lt).join ≠ some kegg then
      .error .keggConflict
    else
      .ok { st with
        locus_tag_to_kegg_accession :=
          dictInsert st.locus_tag_to_kegg_accession lt (some kegg),
        kegg_accession_set := setAdd st.kegg_accession_set kegg }
  else .ok st

/-- Processing of one KEGG row (src/match_ids.py, lines 342-361). -/
def parseKeggRow (st : IdState) (row : KeggRow) : Except IdConflictError IdState :=
  let kegg := row.kegg_accession
  let lt := keggLocusTag kegg
  match parseKeggRowAcc st kegg lt with
  | .error e => .error e
  | .ok st => parseKeggRowLt st kegg lt

/-- `parse_kegg` (src/match_ids.py, lines 327-361).  Note: a row whose
accession is in neither direction of the bidirectional map records
nothing. -/
def parse_kegg (rows : List KeggRow) (st : IdState) :
    Except IdConflictError IdState :=
  rows.foldlM parseKeggRow st

/-! ### Record emission (src/match_ids.py, lines 364-823)

The four ordered phases.  `GenState` carries the growing record list and the
four `used` sets (Python sets that may contain `None`, hence lists of
`Option String`). -/

structure GenState where
  records : List IdMasterRecord := []
  used_uniprot_accessions : List (Option String) := []
  used_refseq_locus_tags : List (Option String) := []
  used_locus_tags : List (Option String) := []
  used_kegg_accessions : List (Option String) := []
deriving DecidableEq, Repr

/-- `locus_tag_to_refseq_locus_tag` built at the top of `generate_id_map`
(src/match_ids.py, lines 385-390) by iterating every item of
`refseq_locus_tag_to_locus_tag` (including the reverse string-valued items,
which Python iterates character by character). -/
def buildLtToRs (st : IdState) : List (String × Option String) :=
  st.refseq_locus_tag_to_locus_tag.foldl
    (fun d entry => entry.2.iterList.foldl (fun d lt => dictInsert d lt entry.1) d) []

/-- Append one record without touching any `used` set (src/match_ids.py,
lines 500-507). -/
def emitOnly (g : GenState) (rec : IdMasterRecord) : GenState :=
  { g with records := g.records ++ [rec] }

/-- Append one record and mark only its RefSeq locus tag used
(src/match_ids.py, lines 668-675). -/
def emitRefseqOnly (g : GenState) (rec : IdMasterRecord) : GenState :=
  { g with
    records := g.records ++ [rec],
    used_refseq_locus_tags := setAdd g.used_refseq_locus_tags rec.refseq_locus_tag }

/-- Append one record and mark its RefSeq locus tag, locus tag and KEGG
accession used (the split emissions at src/match_ids.py lines 530-539 and
586-596, and the phase-2 emissions at lines 683-691). -/
def emitSplit (g : GenState) (rec : IdMasterRecord) : GenState :=
  { g with
    records := g.records ++ [rec],
    used_refseq_locus_tags := setAdd g.used_refseq_locus_tags rec.refseq_locus_tag,
    used_locus_tags := setAdd g.used_locus_tags rec.locus_tag,
    used_kegg_accessions := setAdd g.used_kegg_accessions rec.kegg_accession }

/-- Append one record and mark all four of its identifier fields used (the
main emissions at src/match_ids.py lines 556-566, 604-615, 748-758 and
812-822). -/
def emitMain (g : GenState) (rec : IdMasterRecord) : GenState :=
  { g with
    records := g.records ++ [rec],
    used_uniprot_accessions := setAdd g.used_uniprot_accessions rec.uniprot_accession,
    used_refseq_locus_tags := setAdd g.used_refseq_locus_tags rec.refseq_locus_tag,
    used_locus_tags := setAdd g.used_locus_tags rec.locus_tag,
    used_kegg_accessions := setAdd g.used_kegg_accessions rec.kegg_accession }

/-- Body of the locus-tag loop of `generate_records_from_uniprot`
(src/match_ids.py, lines 511-566).  The Python local `refseq_protein_id` is
reassigned inside the loop and leaks into later iterations, so it is
threaded through the fold.  A Python `KeyError` on
`refseq_locus_tag_to_refseq_protein_id[...]` (line 521) is modelled as a
`None` lookup. -/
def genUniprotLtStep (st : IdState) (ltToRs : List (String × Option String))
    (ua : Option String) (acc : Option String × GenState) (lt : String) :
    Option String × GenState :=
  let rp := acc.1
  let g := acc.2
  let kegg_accession := (dictGet st.locus_tag_to_kegg_accession lt).join
  let rs0 := (dictGet ltToRs lt).join
  let split :=
    if isTruthy rs0 then
      let rsPid := (dictGet st.refseq_locus_tag_to_refseq_protein_id rs0).join
      if isTruthy rsPid ∧ isTruthy rp then
        if rsPid ≠ rp then
          some (⟨none, rs0, some lt, kegg_accession, rsPid⟩ : IdMasterRecord)
        else none
      else none
    else none
  let (rs1, g) :=
    match split with
    | some rec => ((none : Option String), emitSplit g rec)
    | none => (rs0, g)
  let rp :=
    if ¬ isTruthy rp then
      if isTruthy rs1 then (dictGet st.refseq_locus_tag_to_refseq_protein_id rs1).join
      else rp
    else rp
  (rp, emitMain g ⟨ua, rs1, some lt, kegg_accession, rp⟩)

/-- Body of the KEGG-accession loop of `generate_records_from_uniprot`
(src/match_ids.py, lines 570-615).  Note that here the record guarded by
`if refseq_locus_tag:` is appended whenever both protein ids are truthy,
whether or not they differ. -/
def genUniprotKaccStep (st : IdState) (ltToRs : List (String × Option String))
    (ua : Option String) (g : GenState) (kacc : String) : GenState :=
  if some kacc ∈ g.used_kegg_accessions then g
  else
    let lt := (dictGet st.locus_tag_to_kegg_accession kacc).join
    let rs0 := (lt.bind (dictGet ltToRs)).join
    let rp0 := (dictGet st.refseq_locus_tag_to_refseq_protein_id rs0).join
    let split :=
      if isTruthy rs0 then
        let rsPid := (dictGet st.refseq_locus_tag_to_refseq_protein_id rs0).join
        if isTruthy rsPid ∧ isTruthy rp0 then
          some (⟨none, rs0, lt, some kacc, rp0⟩ : IdMasterRecord)
        else none
      else none
    let (rs1, g) :=
      match split with
      | some rec => ((none : Option String), emitSplit g rec)
      | none => (rs0, g)
    let rp1 :=
      if ¬ isTruthy rp0 then
        if isTruthy rs1 then (dictGet st.refseq_locus_tag_to_refseq_protein_id rs1).join
        else rp0
      else rp0
    emitMain g ⟨ua, rs1, lt, some kacc, rp1⟩

/-- Per-accession body of `generate_records_from_uniprot` (src/match_ids.py,
lines 489-615). -/
def genUniprotOne (st : IdState) (ltToRs : List (String × Option String))
    (g : GenState) (ua : Option String) : GenState :=
  let rp0 := (dictGet st.uniprot_to_refseq_protein_id ua).join
  let lts := (dictGet st.uniprot_to_locus_tag ua).getD []
  let kaccs := (dictGet st.uniprot_to_kegg_accession ua).getD []
  let g :=
    if lts.isEmpty ∧ kaccs.isEmpty then
      emitOnly g ⟨ua, none, none, none, rp0⟩
    else g
  let g := (lts.foldl (genUniprotLtStep st ltToRs ua) (rp0, g)).2
  kaccs.foldl (genUniprotKaccStep st ltToRs ua) g

/-- Phase 1: `generate_records_from_uniprot` (src/match_ids.py, lines
445-615). -/
def generate_records_from_uniprot (st : IdState)
    (ltToRs : List (String × Option String)) (g : GenState) : GenState :=
  st.uniprot_to_refseq_protein_id.foldl
    (fun g entry => genUniprotOne st ltToRs g entry.1) g

/-- Phase 2: `generate_records_from_refseq` (src/match_ids.py, lines
618-691). -/
def generate_records_from_refseq (st : IdState)
    (_ltToRs : List (String × Option String)) (g : GenState) : GenState :=
  st.refseq_locus_tag_to_refseq_protein_id.foldl (fun g entry =>
    let rs := entry.1
    if rs ∈ g.used_refseq_locus_tags then g
    else
      let rp := entry.2
      let lts := ((dictGet st.refseq_locus_tag_to_locus_tag rs).getD (.strs [])).iterList
      let g :=
        if lts.isEmpty then
          emitRefseqOnly g ⟨none, rs, none, none, rp⟩
        else g
      lts.foldl (fun g lt =>
        let kacc := (dictGet st.locus_tag_to_kegg_accession lt).join
        emitSplit g ⟨none, rs, some lt, kacc, rp⟩) g) g

/-- Phase 3: `generate_records_from_kegg` (src/match_ids.py, lines 694-758).
Set iteration is modelled in insertion order. -/
def generate_records_from_kegg (st : IdState)
    (ltToRs : List (String × Option String)) (g : GenState) : GenState :=
  st.kegg_accession_set.foldl (fun g kacc =>
    if some kacc ∈ g.used_kegg_accessions then g
    else
      let lt := (dictGet st.locus_tag_to_kegg_accession kacc).join
      let rs := (lt.bind (dictGet ltToRs)).join
      let rp := (dictGet st.refseq_locus_tag_to_refseq_protein_id rs).join
      let ua := ((st.uniprot_to_refseq_protein_id.filter
        (fun p => p.2 = some kacc)).getLast?.map (·.1)).join
      emitMain g ⟨ua, rs, lt, some kacc, rp⟩) g

/-- Phase 4: `generate_records_from_locus_tags` (src/match_ids.py, lines
761-823). -/
def generate_records_from_locus_tags (st : IdState)
    (ltToRs : List (String × Option String)) (g : GenState) : GenState :=
  st.locus_tag_set.foldl (fun g lt =>
    if some lt ∈ g.used_locus_tags then g
    else
      let kacc := (dictGet st.locus_tag_to_kegg_accession lt).join
      let rs := (dictGet ltToRs lt).join
      let rp := (dictGet st.refseq_locus_tag_to_refseq_protein_id rs).join
      let ua := ((st.uniprot_to_refseq_protein_id.filter
        (fun p => p.2 = rp)).getLast?.map (·.1)).join
      emitMain g ⟨ua, rs, some lt, kacc, rp⟩) g

/-- The `GenState` after the four ordered phases of `generate_id_map`
(src/match_ids.py, lines 378-427). -/
def generateIdMapState (st : IdState) : GenState :=
  let ltToRs := buildLtToRs st
  let g := generate_records_from_uniprot st ltToRs {}
  let g := generate_records_from_refseq st ltToRs g
  let g := generate_records_from_kegg st ltToRs g
  generate_records_from_locus_tags st ltToRs g

/-- `generate_id_map` (src/match_ids.py, lines 364-442).  The three
completeness checks are `any(...)` over list comprehensions of the unused
identifiers, so Python tests the *truthiness* of each unused identifier:
unused `None` or `""` entries do not trigger the error. -/
def generate_id_map (st : IdState) : Except IdConflictError (List IdMasterRecord) :=
  let g := generateIdMapState st
  if ((st.refseq_locus_tag_to_refseq_protein_id.map (·.1)).filter
      (fun i => i ∉ g.used_refseq_locus_tags)).any isTruthy then
    .error .incomplete
  else if (st.locus_tag_set.filter
      (fun i => some i ∉ g.used_locus_tags)).any (fun i => i ≠ "") then
    .error .incomplete
  else if (st.kegg_accession_set.filter
      (fun i => some i ∉ g.used_kegg_accessions)).any (fun i => i ≠ "") then
    .error .incomplete
  else
    .ok g.records

/-- The whole reconciliation pipeline of src/match_ids.py `main` (lines
838-856): parse the three streams in order, then generate the id map. -/
def reconcile (uniprot : List UniprotRow) (refseq : List RefseqRow)
    (kegg : List KeggRow) : Except IdConflictError (List IdMasterRecord) := do
  let st ← parse_uniprot uniprot {}
  let st ← parse_refseq refseq st
  let st ← parse_kegg kegg st
  generate_id_map st

/-! ### Graph builder data model (src/lib/graph.py) -/

/-- One row of the persisted id-mapper table
(src/lib/table_id_mapper.py). -/
structure IdMapperRecord where
  uniprot_accession : Option String := none
  refseq_locus_tag : Option String := none
  locus_tag : Option String := none
  kegg_accession : Option String := none
  refseq_protein_id : Option String := none
deriving DecidableEq, Repr

/-- The database state the graph builder queries.  `transcriptomics` backs
the expression-value lookup as `(tag, condition_a, condition_b, value)`
rows; `experimental_conditions` holds `(experiment type, condition name)`
pairs; `gene_names` backs the display-name lookup. -/
structure Db where
  id_mapper : List IdMapperRecord := []
  kegg_relations : List (String × String) := []
  string_interactions : List StringRow := []
  transcriptomics : List (String × String × String × Rat) := []
  experimental_conditions : List (String × String) := []
  gene_names : List (String × String) := []
deriving Repr

/-- `map_id` (src/lib/table_id_mapper.py, lines 175-210): all rows where the
identifier matches any of the five identifier columns (SQL `=`, so a NULL
column never matches). -/
def map_id (db : Db) (id : String) : List IdMapperRecord :=
  db.id_mapper.filter (fun r =>
    r.uniprot_accession = some id ∨ r.refseq_locus_tag = some id ∨
    r.locus_tag = some id ∨ r.kegg_accession = some id ∨
    r.refseq_protein_id = some id)

/-- Modelled from the spec: `get_gene_name` is imported by src/lib/graph.py
from `lib.table_uniprot` but its definition is not under src/; §2-§3 of the
spec describe it as the optional display-name lookup for a primary
accession. -/
def get_gene_name (db : Db) (uniprot_accession : String) : Option String :=
  dictGet db.gene_names uniprot_accession

/-- `is_protein` (src/lib/table_kegg_relations.py, lines 204-219): the
id-mapper table has at least one row whose KEGG-accession column equals the
given accession. -/
def is_protein (db : Db) (kegg_accession : String) : Bool :=
  db.id_mapper.any (fun r => r.kegg_accession = some kegg_accession)

/-- `get_kegg_targets` (src/lib/table_kegg_relations.py, lines 222-248):
directed relation targets of a source accession, kept only when
`is_protein` holds. -/
def get_kegg_targets (db : Db) (kegg_accession : String) : List String :=
  ((db.kegg_relations.filter (fun p => p.1 = kegg_accession)).map (·.2)).filter
    (fun t => is_protein db t)

/-- `condition_is_valid` (src/lib/table_experimental_condition.py, lines
180-215): an `EXISTS` query on (condition name, experiment type). -/
def condition_is_valid (db : Db) (experiment_type condition : String) : Bool :=
  db.experimental_conditions.any (fun p => p.1 = experiment_type ∧ p.2 = condition)

/-- Modelled from the spec: `get_log2_fold_change` is imported by
src/lib/graph.py from `lib.table_transcriptomics` but its definition is not
under src/; §6 of the spec describes it as
`expression-value lookup(tag, condition_a, condition_b) → optional float`. -/
def get_log2_fold_change (db : Db) (tag condition_a condition_b : String) :
    Option Rat :=
  (db.transcriptomics.find?
    (fun r => r.1 = tag ∧ r.2.1 = condition_a ∧ r.2.2.1 = condition_b)).map
      (fun r => r.2.2.2)

/-- `Node` (src/lib/graph.py, lines 21-60). -/
structure Node where
  uniprot_accession : Option String := none
  refseq_locus_tag : List String := []
  locus_tag : List String := []
  kegg_accession : List String := []
  gene_name : Option String := none
  weight : Option Rat := none
deriving DecidableEq, Repr

/-- `Node.id` (src/lib/graph.py, lines 30-53): prefer the first locus tag,
then the first RefSeq locus tag, then the primary accession, then the
sentinel `"NULL"`; a gene name is joined in front when present. -/
def Node.id (n : Node) : String :=
  match n.locus_tag with
  | lt :: _ =>
      match n.gene_name with
      | some gn => gn ++ ";" ++ lt
      | none => lt
  | [] =>
      match n.refseq_locus_tag with
      | rs :: _ =>
          match n.gene_name with
          | some gn => gn ++ ":" ++ rs
          | none => rs
      | [] =>
          match n.uniprot_accession with
          | some ua =>
              match n.gene_name with
              | some gn => gn ++ ";" ++ ua
              | none => ua
          | none => "NULL"

/-- `Node.has_no_ids` (src/lib/graph.py, lines 59-60). -/
def Node.has_no_ids (n : Node) : Bool :=
  n.uniprot_accession.isNone ∧ n.refseq_locus_tag.isEmpty ∧
  n.locus_tag.isEmpty ∧ n.kegg_accession.isEmpty

/-- `Relationship` (src/lib/graph.py, lines 63-98). -/
structure Relationship where
  source_node : Node
  target_node : Node
  interaction : String
  directed : Bool
  source : String
  neighborhood_level : Nat
  weight : Option Rat := none
deriving DecidableEq, Repr

/-- `Relationship.__eq__`/`__hash__` (src/lib/graph.py, lines 91-98):
identity is the ordered pair of endpoint node ids only. -/
def relEq (a b : Relationship) : Bool :=
  a.source_node.id = b.source_node.id ∧ a.target_node.id = b.target_node.id

/-- Membership in the Python relationship set, which compares with
`Relationship.__eq__`. -/
def relMem (rels : List Relationship) (r : Relationship) : Bool :=
  rels.any (fun x => relEq x r)

/-- `set.add` on the relationship set: a no-op when an element equal under
`relEq` is already present. -/
def relAdd (rels : List Relationship) (r : Relationship) : List Relationship :=
  if relMem rels r then rels else rels ++ [r]

/-- `build_node` (src/lib/graph.py, lines 101-134): merge every id-mapper
row matching the identifier into one node; raise (`ValueError`) when two
different primary accessions merge; return `none` when the node ends up
with no identifiers at all. -/
def build_node (db : Db) (id : String) : Except Unit (Option Node) := do
  let node ← (map_id db id).foldlM (fun (node : Node) rec => do
    let node ←
      match rec.uniprot_accession with
      | some ua =>
          match node.uniprot_accession with
          | none => pure { node with uniprot_accession := some ua }
          | some existing =>
              if existing ≠ ua then throw () else pure node
      | none => pure node
    let node :=
      match rec.refseq_locus_tag with
      | some rs =>
          if rs ∈ node.refseq_locus_tag then node
          else { node with refseq_locus_tag := node.refseq_locus_tag ++ [rs] }
      | none => node
    let node :=
      match rec.locus_tag with
      | some lt =>
          if lt ∈ node.locus_tag then node
          else { node with locus_tag := node.locus_tag ++ [lt] }
      | none => node
    let node :=
      match rec.kegg_accession with
      | some ka =>
          if ka ∈ node.kegg_accession then node
          else { node with kegg_accession := node.kegg_accession ++ [ka] }
      | none => node
    pure node) ({} : Node)
  let node :=
    match node.uniprot_accession with
    | some ua => { node with gene_name := get_gene_name db ua }
    | none => node
  if node.has_no_ids then pure none else pure (some node)

/-- `add_kegg_relationships` (src/lib/graph.py, lines 137-166): directed
"pathway"-source edges from one frontier node. -/
def add_kegg_relationships (db : Db) (node : Node) (rels : List Relationship)
    (neighborhood_level : Nat) : Except Unit (List Relationship) :=
  node.kegg_accession.foldlM (fun rels kacc =>
    (get_kegg_targets db kacc).foldlM (fun rels target => do
      match ← build_node db target with
      | none => pure rels
      | some target_node =>
          pure (relAdd rels
            { source_node := node, target_node := target_node,
              interaction := "pp", directed := true, source := "kegg",
              neighborhood_level := neighborhood_level })) rels) rels

/-- `add_string_relationships` (src/lib/graph.py, lines 169-211): undirected
"interaction"-source edges from one frontier node; both endpoint orderings
are checked against the edge set before inserting. -/
def add_string_relationships (db : Db) (node : Node) (string_threshold : Int)
    (rels : List Relationship) (neighborhood_level : Nat) :
    Except Unit (List Relationship) :=
  node.refseq_locus_tag.foldlM (fun rels rs =>
    (get_string_targets db.string_interactions rs string_threshold).foldlM
      (fun rels target => do
        match ← build_node db target with
        | none => pure rels
        | some target_node =>
            let rel : Relationship :=
              { source_node := node, target_node := target_node,
                interaction := "pp", directed := false, source := "string",
                neighborhood_level := neighborhood_level }
            let inv : Relationship :=
              { source_node := target_node, target_node := node,
                interaction := "pp", directed := false, source := "string",
                neighborhood_level := neighborhood_level }
            if ¬ relMem rels rel ∧ ¬ relMem rels inv then
              pure (rels ++ [rel])
            else pure rels) rels) rels

/-- One iteration of the depth loop of `run_build_graph` (src/lib/graph.py,
lines 256-268): expand every frontier node over both relation sources, then
rebuild the frontier as the target nodes of *all* relationships accumulated
so far. -/
def graphRound (db : Db) (string_threshold : Int) (neighborhood_level : Nat)
    (frontier : List Node) (rels : List Relationship) :
    Except Unit (List Node × List Relationship) := do
  let rels ← frontier.foldlM
    (fun rels n => add_kegg_relationships db n rels neighborhood_level) rels
  let rels ← frontier.foldlM
    (fun rels n => add_string_relationships db n string_threshold rels neighborhood_level) rels
  pure (rels.map (·.target_node), rels)

/-- The depth loop, carrying the 1-based neighborhood level. -/
def graphLoop (db : Db) (string_threshold : Int) :
    Nat → Nat → List Node → List Relationship →
    Except Unit (List Node × List Relationship)
  | 0, _, frontier, rels => pure (frontier, rels)
  | n + 1, level, frontier, rels => do
      let (frontier, rels) ← graphRound db string_threshold level frontier rels
      graphLoop db string_threshold n (level + 1) frontier rels

/-- Seed resolution of `run_build_graph` (src/lib/graph.py, lines 248-254):
identifiers resolving to nothing are skipped. -/
def resolveSeeds (db : Db) (id_list : List String) : Except Unit (List Node) :=
  id_list.foldlM (fun nodes id => do
    match ← build_node db id with
    | none => pure nodes
    | some node => pure (nodes ++ [node])) []

/-- `run_build_graph` (src/lib/graph.py, lines 239-270). -/
def run_build_graph (db : Db) (id_list : List String) (depth : Nat)
    (string_threshold : Int) : Except Unit (List Relationship) := do
  let seeds ← resolveSeeds db id_list
  let (_, rels) ← graphLoop db string_threshold depth 1 seeds []
  pure rels

/-- The frontier (`query_nodes`) held after `depth` iterations of the depth
loop — the node list that iteration `depth + 1` would expand. -/
def build_graph_frontier (db : Db) (id_list : List String) (depth : Nat)
    (string_threshold : Int) : Except Unit (List Node) := do
  let seeds ← resolveSeeds db id_list
  let (frontier, _) ← graphLoop db string_threshold depth 1 seeds []
  pure frontier

/-- `get_transcriptomics_weight` (src/lib/graph.py, lines 214-236): collect
the fold change of every locus tag and RefSeq locus tag of the node,
keeping only Python-truthy values (`None` *and* `0.0` are dropped), then
take the value of largest absolute magnitude (first wins on ties, as in
Python `max`). -/
def get_transcriptomics_weight (db : Db) (node : Node)
    (condition_a condition_b : String) : Option Rat :=
  let weights :=
    (node.locus_tag.filterMap (fun lt =>
      match get_log2_fold_change db lt condition_a condition_b with
      | some w => if w ≠ 0 then some w else none
      | none => none))
    ++ (node.refseq_locus_tag.filterMap (fun rs =>
      match get_log2_fold_change db rs condition_a condition_b with
      | some w => if w ≠ 0 then some w else none
      | none => none))
  match weights with
  | [] => none
  | w :: ws => some (ws.foldl (fun best x => if |x| > |best| then x else best) w)

/-- Reweighting of a single relationship: both endpoint nodes receive their
transcriptomics weight. -/
def reweightRel (db : Db) (condition_a condition_b : String)
    (r : Relationship) : Relationship :=
  { r with
    source_node :=
      { r.source_node with
        weight := get_transcriptomics_weight db r.source_node condition_a condition_b },
    target_node :=
      { r.target_node with
        weight := get_transcriptomics_weight db r.target_node condition_a condition_b } }

/-- `adjust_weights_with_expression_data` (src/lib/graph.py, lines 273-310).
Both conditions are validated before anything is touched; the
`"transcriptomics"` arm rewrites node weights only; `"proteomics"` raises
`NotImplementedError`; any other experiment type matches no arm and changes
nothing. -/
def adjust_weights_with_expression_data (db : Db) (rels : List Relationship)
    (experiment_type condition_a condition_b : String) :
    Except Unit (List Relationship) :=
  if ¬ condition_is_valid db experiment_type condition_a then .error ()
  else if ¬ condition_is_valid db experiment_type condition_b then .error ()
  else if experiment_type = "transcriptomics" then
    .ok (rels.map (reweightRel db condition_a condition_b))
  else if experiment_type = "proteomics" then
    .error ()
  else
    .ok rels

/-! ### Specification predicates and helper lemmas -/

/-- `m` is the first accession of `keggs`, in list order, that contains
`lt` as a substring (`none` when no accession contains it). -/
def IsFirstMatch (lt : String) (keggs : List String) : Option String → Prop
  | none => ∀ k ∈ keggs, ¬ pySubstr lt k
  | some k => pySubstr lt k ∧
      ∃ pre post, keggs = pre ++ k :: post ∧ ∀ k' ∈ pre, ¬ pySubstr lt k'

theorem isFirstMatch_find? (lt : String) (keggs : List String) :
    IsFirstMatch lt keggs (keggs.find? (fun k => pySubstr lt k)) := by
  cases h : keggs.find? (fun k => pySubstr lt k) with
  | none =>
      intro k hk
      simpa using List.find?_eq_none.1 h k hk
  | some k =>
      obtain ⟨hp, pre, post, heq, hpre⟩ := List.find?_eq_some.1 h
      exact ⟨by simpa using hp, pre, post, heq,
        fun k' hk' => by simpa using hpre k' hk'⟩

/-! ### Claim theorems for the pairing heuristic and the score threshold -/

/-- Claim C8: `pair_lt_kegg` first returns one pair per locus tag in list
order, each locus tag paired with the first pathway accession (in list
order) containing it as a substring, or with `none` when no accession
contains it; afterwards it returns one `(none, accession)` pair for every
accession not selected in the first pass; consequently every input pathway
accession occurs as the second component of at least one returned pair. -/
theorem pair_lt_kegg_first_match_and_complete (lts keggs : List String) :
    (∀ i (h : i < lts.length),
        ∃ m, (pair_lt_kegg lts keggs).get? i = some (some (lts.get ⟨i, h⟩), m) ∧
          IsFirstMatch (lts.get ⟨i, h⟩) keggs m) ∧
    (∀ p ∈ (pair_lt_kegg lts keggs).drop lts.length,
        p.1 = none ∧ ∃ k ∈ keggs, p.2 = some k ∧
          ∀ q ∈ (pair_lt_kegg lts keggs).take lts.length, q.2 ≠ some k) ∧
    (∀ k ∈ keggs, ∃ p ∈ pair_lt_kegg lts keggs, p.2 = some k) := by
  have hlen : (lts.map (fun lt =>
      ((some lt : Option String), keggs.find? (fun kegg => pySubstr lt kegg)))).length
      = lts.length := List.length_map _ _
  refine ⟨?_, ?_, ?_⟩
  · intro i h
    refine ⟨keggs.find? (fun kegg => pySubstr (lts.get ⟨i, h⟩) kegg), ?_,
      isFirstMatch_find? _ _⟩
    unfold pair_lt_kegg
    rw [List.get?_append (by simpa using h), List.get?_map,
      List.get?_eq_get h]
    rfl
  · intro p hp
    unfold pair_lt_kegg at hp
    rw [show lts.length = (lts.map (fun lt =>
        ((some lt : Option String), keggs.find? (fun kegg => pySubstr lt kegg)))).length
      from hlen.symm, List.drop_left] at hp
    obtain ⟨k, hk, rfl⟩ := List.mem_map.1 hp
    obtain ⟨hkmem, hsel⟩ := List.mem_filter.1 hk
    refine ⟨rfl, k, hkmem, rfl, ?_⟩
    intro q hq hq2
    unfold pair_lt_kegg at hq
    rw [show lts.length = (lts.map (fun lt =>
        ((some lt : Option String), keggs.find? (fun kegg => pySubstr lt kegg)))).length
      from hlen.symm, List.take_left] at hq
    have : ¬ (lts.map (fun lt =>
        ((some lt : Option String), keggs.find? (fun kegg => pySubstr lt kegg)))).any
        (fun pair => pair.2 = some k) := by simpa using hsel
    exact this (List.any_eq_true.2 ⟨q, hq, by simpa using hq2⟩)
  · intro k hk
    by_cases hc : (lts.map (fun lt =>
        ((some lt : Option String), keggs.find? (fun kegg => pySubstr lt kegg)))).any
        (fun pair => pair.2 = some k)
    · obtain ⟨q, hq, hq2⟩ := List.any_eq_true.1 hc
      exact ⟨q, by unfold pair_lt_kegg; exact List.mem_append_left _ hq,
        by simpa using hq2⟩
    · refine ⟨(none, some k), ?_, rfl⟩
      unfold pair_lt_kegg
      refine List.mem_append_right _ (List.mem_map.2 ⟨k, ?_, rfl⟩)
      exact List.mem_filter.2 ⟨hk, by simpa using hc⟩

/-- Closed instance of the claim-C8 theorem: with locus tags `["L1"]` and
accessions `["x:L9", "k:L1"]`, the accession `"x:L9"` (selected by no locus
tag) still occurs as the second component of a returned pair. -/
theorem pair_lt_kegg_first_match_witness :
    ∃ p ∈ pair_lt_kegg ["L1"] ["x:L9", "k:L1"], p.2 = some "x:L9" :=
  (pair_lt_kegg_first_match_and_complete ["L1"] ["x:L9", "k:L1"]).2.2 "x:L9"
    (by decide)

/-- Claim C6: the undirected interaction-source lookup filters with a
strict `>` on the combined score: a target is returned exactly when some
stored row matches the query identifier in either column order with score
strictly greater than the threshold; in particular a single row whose score
equals the threshold contributes nothing, and at threshold `+ 1` its
partner is returned. -/
theorem get_string_targets_strict_threshold (table : List StringRow)
    (q b : String) (t : Int) :
    (b ∈ get_string_targets table q t ↔
      ∃ r ∈ table, ((r.protein_a = q ∧ r.protein_b = b) ∨
        (r.protein_b = q ∧ r.protein_a = b)) ∧ r.combined_score > t) ∧
    get_string_targets [⟨q, b, t⟩] q t = [] ∧
    b ∈ get_string_targets [⟨q, b, t + 1⟩] q t := by
  refine ⟨?_, ?_, ?_⟩
  · unfold get_string_targets
    constructor
    · intro h
      rcases List.mem_append.1 h with h | h
      · obtain ⟨r, hr, rfl⟩ := List.mem_map.1 h
        obtain ⟨hmem, hcond⟩ := List.mem_filter.1 hr
        have hc := of_decide_eq_true hcond
        exact ⟨r, hmem, Or.inl ⟨hc.1, rfl⟩, hc.2⟩
      · obtain ⟨r, hr, rfl⟩ := List.mem_map.1 h
        obtain ⟨hmem, hcond⟩ := List.mem_filter.1 hr
        have hc := of_decide_eq_true hcond
        exact ⟨r, hmem, Or.inr ⟨hc.1, rfl⟩, hc.2⟩
    · rintro ⟨r, hmem, hor, hscore⟩
      rcases hor with ⟨ha, hb⟩ | ⟨ha, hb⟩
      · exact List.mem_append_left _ (List.mem_map.2 ⟨r, List.mem_filter.2
          ⟨hmem, decide_eq_true ⟨ha, hscore⟩⟩, hb⟩)
      · exact List.mem_append_right _ (List.mem_map.2 ⟨r, List.mem_filter.2
          ⟨hmem, decide_eq_true ⟨ha, hscore⟩⟩, hb⟩)
  · simp [get_string_targets]
  · simp [get_string_targets]

/-- Closed instance of the claim-C6 theorem: a row scored exactly at
threshold 7 is excluded; scored 8 it is included. -/
theorem get_string_targets_strict_threshold_witness :
    get_string_targets [⟨"Q", "B", 7⟩] "Q" 7 = [] ∧
    "B" ∈ get_string_targets [⟨"Q", "B", 8⟩] "Q" 7 :=
  ⟨(get_string_targets_strict_threshold [⟨"Q", "B", 7⟩] "Q" "B" 7).2.1,
   (get_string_targets_strict_threshold [⟨"Q", "B", 8⟩] "Q" "B" 7).2.2⟩

/-! ### Completeness of the emission phases (claim C1)

Every non-`none` identifier added to a `used` set is added next to a record
carrying that identifier in the matching field; combined with the explicit
final checks of `generate_id_map` this yields the (amended) completeness
property. -/

/-- The optional identifier `x`, when present, is carried by some record in
field `f`. -/
def coveredBy (recs : List IdMasterRecord) (f : IdMasterRecord → Option String)
    (x : Option String) : Prop :=
  ∀ s, x = some s → ∃ r ∈ recs, f r = some s

/-- Every member of the three tracked `used` sets is carried by some
emitted record in the matching field. -/
def UsedCovered (g : GenState) : Prop :=
  (∀ x ∈ g.used_refseq_locus_tags, coveredBy g.records (·.refseq_locus_tag) x) ∧
  (∀ x ∈ g.used_locus_tags, coveredBy g.records (·.locus_tag) x) ∧
  (∀ x ∈ g.used_kegg_accessions, coveredBy g.records (·.kegg_accession) x)

theorem coveredBy_mono {recs : List IdMasterRecord}
    {f : IdMasterRecord → Option String} {x : Option String}
    (l : List IdMasterRecord) (h : coveredBy recs f x) :
    coveredBy (recs ++ l) f x := by
  intro s hs
  obtain ⟨r, hr, hfr⟩ := h s hs
  exact ⟨r, List.mem_append_left _ hr, hfr⟩

theorem coveredBy_last (recs : List IdMasterRecord)
    (f : IdMasterRecord → Option String) (rec : IdMasterRecord) :
    coveredBy (recs ++ [rec]) f (f rec) := by
  intro s hs
  exact ⟨rec, List.mem_append_right _ (List.mem_singleton.2 rfl), hs⟩

theorem mem_setAdd {α : Type} [DecidableEq α] {s : List α} {x y : α}
    (h : x ∈ setAdd s y) : x ∈ s ∨ x = y := by
  unfold setAdd at h
  split at h
  · exact Or.inl h
  · rcases List.mem_append.1 h with h | h
    · exact Or.inl h
    · exact Or.inr (List.mem_singleton.1 h)

/-- Adding `f rec` to a covered `used` set while appending `rec` keeps it
covered. -/
theorem coveredAll_add {used : List (Option String)}
    {recs : List IdMasterRecord} {f : IdMasterRecord → Option String}
    (rec : IdMasterRecord)
    (h : ∀ x ∈ used, coveredBy recs f x) :
    ∀ x ∈ setAdd used (f rec), coveredBy (recs ++ [rec]) f x := by
  intro x hx
  rcases mem_setAdd hx with hx | rfl
  · exact coveredBy_mono _ (h x hx)
  · exact coveredBy_last recs f rec

/-- An untouched covered `used` set stays covered when records are
appended. -/
theorem coveredAll_keep {used : List (Option String)}
    {recs : List IdMasterRecord} {f : IdMasterRecord → Option String}
    (l : List IdMasterRecord)
    (h : ∀ x ∈ used, coveredBy recs f x) :
    ∀ x ∈ used, coveredBy (recs ++ l) f x :=
  fun x hx => coveredBy_mono _ (h x hx)

theorem usedCovered_emitOnly {g : GenState} (rec : IdMasterRecord)
    (h : UsedCovered g) : UsedCovered (emitOnly g rec) :=
  ⟨coveredAll_keep _ h.1, coveredAll_keep _ h.2.1, coveredAll_keep _ h.2.2⟩

theorem usedCovered_emitRefseqOnly {g : GenState} (rec : IdMasterRecord)
    (h : UsedCovered g) : UsedCovered (emitRefseqOnly g rec) :=
  ⟨coveredAll_add rec h.1, coveredAll_keep _ h.2.1, coveredAll_keep _ h.2.2⟩

theorem usedCovered_emitSplit {g : GenState} (rec : IdMasterRecord)
    (h : UsedCovered g) : UsedCovered (emitSplit g rec) :=
  ⟨coveredAll_add rec h.1, coveredAll_add rec h.2.1, coveredAll_add rec h.2.2⟩

theorem usedCovered_emitMain {g : GenState} (rec : IdMasterRecord)
    (h : UsedCovered g) : UsedCovered (emitMain g rec) :=
  ⟨coveredAll_add rec h.1, coveredAll_add rec h.2.1, coveredAll_add rec h.2.2⟩

/-- `foldl` preserves any invariant its step preserves. -/
theorem foldl_preserves {α β : Type} {P : β → Prop} {f : β → α → β}
    (hf : ∀ b a, P b → P (f b a)) :
    ∀ (l : List α) (b : β), P b → P (l.foldl f b) := by
  intro l
  induction l with
  | nil => intro b hb; exact hb
  | cons a l ih => intro b hb; exact ih _ (hf b a hb)

theorem usedCovered_genUniprotLtStep (st : IdState)
    (ltToRs : List (String × Option String)) (ua : Option String)
    (acc : Option String × GenState) (lt : String)
    (h : UsedCovered acc.2) :
    UsedCovered (genUniprotLtStep st ltToRs ua acc lt).2 := by
  unfold genUniprotLtStep
  dsimp only
  split
  · exact usedCovered_emitMain _ (usedCovered_emitSplit _ h)
  · exact usedCovered_emitMain _ h

theorem usedCovered_genUniprotKaccStep (st : IdState)
    (ltToRs : List (String × Option String)) (ua : Option String)
    (g : GenState) (kacc : String) (h : UsedCovered g) :
    UsedCovered (genUniprotKaccStep st ltToRs ua g kacc) := by
  unfold genUniprotKaccStep
  dsimp only
  split
  · exact h
  · split
    · exact usedCovered_emitMain _ (usedCovered_emitSplit _ h)
    · exact usedCovered_emitMain _ h

theorem usedCovered_genUniprotOne (st : IdState)
    (ltToRs : List (String × Option String)) (g : GenState)
    (ua : Option String) (h : UsedCovered g) :
    UsedCovered (genUniprotOne st ltToRs g ua) := by
  unfold genUniprotOne
  dsimp only
  refine foldl_preserves (fun g a hg => usedCovered_genUniprotKaccStep st ltToRs ua g a hg) _ _ ?_
  have h1 : UsedCovered (if ((dictGet st.uniprot_to_locus_tag ua).getD []).isEmpty ∧
      ((dictGet st.uniprot_to_kegg_accession ua).getD []).isEmpty then
        emitOnly g ⟨ua, none, none, none,
          (dictGet st.uniprot_to_refseq_protein_id ua).join⟩
      else g) := by
    split
    · exact usedCovered_emitOnly _ h
    · exact h
  exact foldl_preserves (P := fun acc => UsedCovered acc.2)
    (fun b a hb => usedCovered_genUniprotLtStep st ltToRs ua b a hb) _
    ((dictGet st.uniprot_to_refseq_protein_id ua).join, _) h1

theorem usedCovered_generateIdMapState (st : IdState) :
    UsedCovered (generateIdMapState st) := by
  unfold generateIdMapState
  dsimp only
  have h0 : UsedCovered {} := by
    refine ⟨?_, ?_, ?_⟩ <;> (intro x hx; cases hx)
  have h1 := foldl_preserves
    (P := UsedCovered)
    (fun g entry hg => usedCovered_genUniprotOne st (buildLtToRs st) g entry.1 hg)
    st.uniprot_to_refseq_protein_id {} h0
  have h2 : UsedCovered (generate_records_from_refseq st (buildLtToRs st)
      (generate_records_from_uniprot st (buildLtToRs st) {})) := by
    unfold generate_records_from_refseq
    refine foldl_preserves ?_ _ _ h1
    intro g entry hg
    dsimp only
    split
    · exact hg
    · refine foldl_preserves ?_ _ _ ?_
      · intro g lt hg
        exact usedCovered_emitSplit _ hg
      · split
        · exact usedCovered_emitRefseqOnly _ hg
        · exact hg
  have h3 : UsedCovered (generate_records_from_kegg st (buildLtToRs st)
      (generate_records_from_refseq st (buildLtToRs st)
        (generate_records_from_uniprot st (buildLtToRs st) {}))) := by
    unfold generate_records_from_kegg
    refine foldl_preserves ?_ _ _ h2
    intro g kacc hg
    dsimp only
    split
    · exact hg
    · exact usedCovered_emitMain _ hg
  unfold generate_records_from_locus_tags
  refine foldl_preserves ?_ _ _ h3
  intro g lt hg
  dsimp only
  split
  · exact hg
  · exact usedCovered_emitMain _ hg

/-- From a false `any`-over-filter check: an element of the list on which
the scrutinised property holds cannot satisfy the filter. -/
theorem any_filter_false {α : Type} {l : List α} {q p : α → Bool}
    (h : (l.filter q).any p = false) (x : α) (hx : x ∈ l) (hp : p x = true) :
    q x = false := by
  by_contra hq
  have hq' : q x = true := by simpa using hq
  have : (l.filter q).any p = true :=
    List.any_eq_true.2 ⟨x, List.mem_filter.2 ⟨hx, hq'⟩, hp⟩
  rw [h] at this
  cases this

/-- Claim C1 (amended): when `generate_id_map` returns successfully, every
non-empty identifier *recorded in the engine's association structures during
parsing* — annotation (RefSeq) locus tags keyed in the annotation map, locus
tags in `locus_tag_set`, pathway (KEGG) accessions in `kegg_accession_set` —
is referenced by at least one emitted record in the matching field.  (The
unamended claim, quantifying over identifiers merely *observed in the input
streams*, is refuted by `reconcile_pathway_only_accession_dropped`.) -/
theorem generate_id_map_completeness (st : IdState)
    (recs : List IdMasterRecord) (h : generate_id_map st = .ok recs) :
    (∀ x ∈ st.refseq_locus_tag_to_refseq_protein_id, ∀ s, x.1 = some s →
        s ≠ "" → ∃ r ∈ recs, r.refseq_locus_tag = some s) ∧
    (∀ lt ∈ st.locus_tag_set, lt ≠ "" →
        ∃ r ∈ recs, r.locus_tag = some lt) ∧
    (∀ k ∈ st.kegg_accession_set, k ≠ "" →
        ∃ r ∈ recs, r.kegg_accession = some k) := by
  have hcov := usedCovered_generateIdMapState st
  unfold generate_id_map at h
  dsimp only at h
  split at h
  · cases h
  · split at h
    · cases h
    · split at h
      · cases h
      · rename_i h1 h2 h3
        have h1' : ((st.refseq_locus_tag_to_refseq_protein_id.map (·.1)).filter
            (fun i => i ∉ (generateIdMapState st).used_refseq_locus_tags)).any
              isTruthy = false := by simpa using h1
        have h2' : (st.locus_tag_set.filter
            (fun i => some i ∉ (generateIdMapState st).used_locus_tags)).any
              (fun i => i ≠ "") = false := by simpa using h2
        have h3' : (st.kegg_accession_set.filter
            (fun i => some i ∉ (generateIdMapState st).used_kegg_accessions)).any
              (fun i => i ≠ "") = false := by simpa using h3
        have hrecs : (generateIdMapState st).records = recs := by
          simpa using h
        refine ⟨?_, ?_, ?_⟩
        · intro x hx s hs hne
          have hkey : (some s : Option String) ∈
              st.refseq_locus_tag_to_refseq_protein_id.map (·.1) :=
            List.mem_map.2 ⟨x, hx, hs⟩
          have := any_filter_false h1' (some s) hkey (by simpa [isTruthy] using hne)
          have hmem : (some s : Option String) ∈
              (generateIdMapState st).used_refseq_locus_tags := by
            simpa using this
          obtain ⟨r, hr, hfr⟩ := hcov.1 _ hmem s rfl
          exact ⟨r, hrecs ▸ hr, hfr⟩
        · intro lt hlt hne
          have := any_filter_false h2' lt hlt (by simpa using hne)
          have hmem : (some lt : Option String) ∈
              (generateIdMapState st).used_locus_tags := by
            simpa using this
          obtain ⟨r, hr, hfr⟩ := hcov.2.1 _ hmem lt rfl
          exact ⟨r, hrecs ▸ hr, hfr⟩
        · intro k hk hne
          have := any_filter_false h3' k hk (by simpa using hne)
          have hmem : (some k : Option String) ∈
              (generateIdMapState st).used_kegg_accessions := by
            simpa using this
          obtain ⟨r, hr, hfr⟩ := hcov.2.2 _ hmem k rfl
          exact ⟨r, hrecs ▸ hr, hfr⟩

/-- Counterexample to claim C1 as stated: on the input streams
`([], [], ["xx:L9"])` reconciliation succeeds, yet the pathway accession
`"xx:L9"` — observed in the pathway stream — is referenced by no emitted
record (the output is empty): `parse_kegg` records an accession only when
one side of it is already in the bidirectional map. -/
theorem reconcile_pathway_only_accession_dropped :
    reconcile [] [] [{ kegg_accession := "xx:L9" }] = .ok [] ∧
    ¬ (∀ (u : List UniprotRow) (rr : List RefseqRow) (kk : List KeggRow)
        (recs : List IdMasterRecord), reconcile u rr kk = .ok recs →
        ∀ row ∈ kk, ∃ rec ∈ recs, rec.kegg_accession = some row.kegg_accession) := by
  refine ⟨by decide, ?_⟩
  intro hclaim
  obtain ⟨rec, hrec, -⟩ := hclaim [] [] [{ kegg_accession := "xx:L9" }] []
    (by decide) { kegg_accession := "xx:L9" } (by simp)
  cases hrec

/-- Closed instance of the amended claim-C1 theorem: on a state whose
association structures record locus tag `"L1"` and pathway accession
`"k:L1"`, the successful run references both in its output. -/
theorem generate_id_map_completeness_witness :
    (∃ r ∈ (generateIdMapState
        { uniprot_to_refseq_protein_id := [(some "U1", none)],
          uniprot_to_locus_tag := [(some "U1", ["L1"])],
          uniprot_to_kegg_accession := [(some "U1", ["k:L1"])],
          locus_tag_to_kegg_accession := [("L1", some "k:L1"), ("k:L1", some "L1")],
          locus_tag_set := ["L1"],
          kegg_accession_set := ["k:L1"] }).records,
      r.kegg_accession = some "k:L1") :=
  (generate_id_map_completeness
    { uniprot_to_refseq_protein_id := [(some "U1", none)],
      uniprot_to_locus_tag := [(some "U1", ["L1"])],
      uniprot_to_kegg_accession := [(some "U1", ["k:L1"])],
      locus_tag_to_kegg_accession := [("L1", some "k:L1"), ("k:L1", some "L1")],
      locus_tag_set := ["L1"],
      kegg_accession_set := ["k:L1"] } _ (by decide)).2.2 "k:L1" (by decide)
    (by decide)

/-! ### Claim C2: the concrete reconciliation scenario -/

/-- Claim C2 (code evaluated at the spec's fixture): reconciling the primary
row `(U1, [L1, L2], [k:L1])`, the annotation row `(R1, [L1], RP1)` and the
pathway row `(k:L1)` emits the record joining U1/R1/L1/k:L1/RP1 — but the
second record, for U1/L2, carries `refseq_protein_id = some "RP1"`: the
Python local `refseq_protein_id`, refreshed from the RefSeq map during the
L1 iteration, leaks into the L2 iteration.  The spec (§8) requires the
second record to carry no protein id. -/
theorem reconcile_fixture_protein_id_leak :
    reconcile
      [{ uniprot_accession := some "U1", locus_tag := ["L1", "L2"],
         kegg_accession := ["k:L1"] }]
      [{ refseq_locus_tag := some "R1", locus_tag := ["L1"],
         refseq_protein_id := some "RP1" }]
      [{ kegg_accession := "k:L1" }]
    = .ok
      [{ uniprot_accession := some "U1", refseq_locus_tag := some "R1",
         locus_tag := some "L1", kegg_accession := some "k:L1",
         refseq_protein_id := some "RP1" },
       { uniprot_accession := some "U1", refseq_locus_tag := none,
         locus_tag := some "L2", kegg_accession := none,
         refseq_protein_id := some "RP1" }] := by decide

/-! ### Claim C3: conflict detection -/

theorem dictContains_dictInsert_self {K V : Type} [DecidableEq K]
    (d : List (K × V)) (k : K) (v : V) :
    dictContains (dictInsert d k v) k = true := by
  unfold dictInsert
  split
  · rename_i hc
    unfold dictContains at hc ⊢
    rw [List.any_map]
    obtain ⟨q, hq, hq1⟩ := List.any_eq_true.1 hc
    refine List.any_eq_true.2 ⟨q, hq, ?_⟩
    simp only [Function.comp]
    split
    · simp
    · exact hq1
  · unfold dictContains
    refine List.any_eq_true.2 ⟨(k, v), List.mem_append_right _ ?_, by simp⟩
    exact List.mem_singleton.2 rfl

theorem dictContains_dictInsert_mono {K V : Type} [DecidableEq K]
    {d : List (K × V)} {k : K} (k' : K) (v : V)
    (h : dictContains d k = true) :
    dictContains (dictInsert d k' v) k = true := by
  unfold dictInsert
  split
  · unfold dictContains at h ⊢
    rw [List.any_map]
    obtain ⟨q, hq, hq1⟩ := List.any_eq_true.1 h
    refine List.any_eq_true.2 ⟨q, hq, ?_⟩
    simp only [Function.comp]
    have hqk : q.1 = k := by simpa using hq1
    split
    · rename_i hqk'
      simp [← hqk, hqk']
    · simpa using hqk
  · unfold dictContains at h ⊢
    obtain ⟨q, hq, hq1⟩ := List.any_eq_true.1 h
    exact List.any_eq_true.2 ⟨q, List.mem_append_left _ hq, hq1⟩

theorem recordPair_uniprot_map (st : IdState) (p : Option String × Option String) :
    (recordPair st p).uniprot_to_refseq_protein_id = st.uniprot_to_refseq_protein_id := by
  unfold recordPair
  rcases p with ⟨p1, p2⟩
  cases p1 <;> cases p2 <;> dsimp only <;> (try split) <;> (try split) <;> rfl

theorem recordPairs_uniprot_map (l : List (Option String × Option String))
    (st : IdState) :
    (l.foldl recordPair st).uniprot_to_refseq_protein_id =
      st.uniprot_to_refseq_protein_id := by
  induction l generalizing st with
  | nil => rfl
  | cons p l ih => rw [List.foldl_cons, ih, recordPair_uniprot_map]

theorem parseUniprotRow_of_not_contains {st : IdState} {row : UniprotRow}
    (h : dictContains st.uniprot_to_refseq_protein_id row.uniprot_accession = false) :
    parseUniprotRow st row = .ok
      ((pair_lt_kegg row.locus_tag row.kegg_accession).foldl recordPair
        { st with
          uniprot_to_refseq_protein_id :=
            dictInsert st.uniprot_to_refseq_protein_id row.uniprot_accession
              row.refseq_protein_id,
          uniprot_to_locus_tag :=
            dictInsert st.uniprot_to_locus_tag row.uniprot_accession row.locus_tag,
          uniprot_to_kegg_accession :=
            dictInsert st.uniprot_to_kegg_accession row.uniprot_accession
              row.kegg_accession }) := by
  unfold parseUniprotRow
  simp only [h, Bool.false_eq_true, if_false]

theorem parseUniprotRow_of_contains {st : IdState} {row : UniprotRow}
    (h : dictContains st.uniprot_to_refseq_protein_id row.uniprot_accession = true) :
    parseUniprotRow st row = .error .duplicateUniprot := by
  unfold parseUniprotRow
  simp [h]

/-- A duplicate primary accession in the remaining rows — or one already
keyed in the accession map — makes the `parse_uniprot` fold fail with the
duplicate-accession conflict. -/
theorem parse_uniprot_fold_duplicate :
    ∀ (rows : List UniprotRow) (st : IdState),
    (¬ (rows.map (·.uniprot_accession)).Nodup ∨
      ∃ row ∈ rows,
        dictContains st.uniprot_to_refseq_protein_id row.uniprot_accession = true) →
    rows.foldlM parseUniprotRow st = .error .duplicateUniprot := by
  intro rows
  induction rows with
  | nil =>
      intro st h
      rcases h with h | ⟨row, hrow, -⟩
      · simp at h
      · cases hrow
  | cons row rows ih =>
      intro st h
      rw [List.foldlM_cons]
      by_cases hc : dictContains st.uniprot_to_refseq_protein_id
          row.uniprot_accession = true
      · rw [parseUniprotRow_of_contains hc]
        rfl
      · have hc' : dictContains st.uniprot_to_refseq_protein_id
            row.uniprot_accession = false := by simpa using hc
        rw [parseUniprotRow_of_not_contains hc']
        have hkey : ∀ st' : IdState,
            st'.uniprot_to_refseq_protein_id =
              dictInsert st.uniprot_to_refseq_protein_id row.uniprot_accession
                row.refseq_protein_id →
            rows.foldlM parseUniprotRow st' = .error .duplicateUniprot := by
          intro st' hst'
          apply ih
          rcases h with h | ⟨row', hrow', hcont⟩
          · rw [List.map_cons, List.nodup_cons] at h
            push_neg at h
            by_cases hmem : row.uniprot_accession ∈ rows.map (·.uniprot_accession)
            · obtain ⟨row', hrow', heq⟩ := List.mem_map.1 hmem
              refine Or.inr ⟨row', hrow', ?_⟩
              rw [hst', heq]
              exact dictContains_dictInsert_self _ _ _
            · exact Or.inl (h hmem)
          · rcases List.mem_cons.1 hrow' with rfl | hrow'
            · rw [hcont] at hc'
              cases hc'
            · refine Or.inr ⟨row', hrow', ?_⟩
              rw [hst']
              exact dictContains_dictInsert_mono _ _ hcont
        exact hkey _ (by rw [recordPairs_uniprot_map])

theorem parseKeggRow_conflict_acc {st : IdState} {row : KeggRow}
    (hc : dictContains st.locus_tag_to_kegg_accession row.kegg_accession = true)
    (hne : (dictGet st.locus_tag_to_kegg_accession row.kegg_accession).join ≠
      some (keggLocusTag row.kegg_accession)) :
    parseKeggRow st row = .error .keggConflict := by
  unfold parseKeggRow parseKeggRowAcc
  dsimp only
  rw [if_pos hc, if_pos hne]

theorem parseKeggRow_conflict_lt {st : IdState} {row : KeggRow}
    (hc : dictContains st.locus_tag_to_kegg_accession row.kegg_accession = false)
    (hc2 : dictContains st.locus_tag_to_kegg_accession
      (keggLocusTag row.kegg_accession) = true)
    (hne : (dictGet st.locus_tag_to_kegg_accession
      (keggLocusTag row.kegg_accession)).join ≠ some row.kegg_accession) :
    parseKeggRow st row = .error .keggConflict := by
  unfold parseKeggRow parseKeggRowAcc parseKeggRowLt
  dsimp only
  rw [if_neg (by simp [hc])]
  dsimp only
  rw [if_pos hc2, if_pos hne]

/-- Claim C3 (amended): reconciliation fails with the duplicate-accession
conflict whenever the primary stream repeats a primary accession; and a
pathway-stream row raises the binding conflict when its accession — or,
failing that, its derived locus tag — is already bound in the bidirectional
map to a different counterpart.  (Contradictory bindings arising entirely
inside the primary stream overwrite silently: see
`reconcile_contradictory_bindings_no_error`.) -/
theorem reconcile_conflict_detection (u : List UniprotRow) (r : List RefseqRow)
    (k : List KeggRow) (st : IdState) (row : KeggRow) (rest : List KeggRow) :
    (¬ (u.map (·.uniprot_accession)).Nodup →
      reconcile u r k = .error .duplicateUniprot) ∧
    (dictContains st.locus_tag_to_kegg_accession row.kegg_accession = true →
      (dictGet st.locus_tag_to_kegg_accession row.kegg_accession).join ≠
        some (keggLocusTag row.kegg_accession) →
      parse_kegg (row :: rest) st = .error .keggConflict) ∧
    (dictContains st.locus_tag_to_kegg_accession row.kegg_accession = false →
      dictContains st.locus_tag_to_kegg_accession (keggLocusTag row.kegg_accession) = true →
      (dictGet st.locus_tag_to_kegg_accession (keggLocusTag row.kegg_accession)).join ≠
        some row.kegg_accession →
      parse_kegg (row :: rest) st = .error .keggConflict) := by
  refine ⟨?_, ?_, ?_⟩
  · intro hdup
    have hu : parse_uniprot u {} = .error .duplicateUniprot := by
      apply parse_uniprot_fold_duplicate
      left
      have : (u.map normalizeUniprotRow).map (·.uniprot_accession) =
          u.map (·.uniprot_accession) := by
        rw [List.map_map]
        rfl
      rw [this]
      exact hdup
    unfold reconcile
    rw [hu]
    rfl
  · intro hc hne
    unfold parse_kegg
    rw [List.foldlM_cons, parseKeggRow_conflict_acc hc hne]
    rfl
  · intro hc hc2 hne
    unfold parse_kegg
    rw [List.foldlM_cons, parseKeggRow_conflict_lt hc hc2 hne]
    rfl

/-- Counterexample to claim C3 as stated: two primary-stream rows bind the
locus tag `"L1"` to the two different pathway accessions `"x:L1"` and
`"y:L1"`; the second binding silently overwrites the first in the
bidirectional map and the whole reconciliation still succeeds — no
`ConflictError` is raised. -/
theorem reconcile_contradictory_bindings_no_error :
    (parse_uniprot
      [{ uniprot_accession := some "U1", locus_tag := ["L1"],
         kegg_accession := ["x:L1"] },
       { uniprot_accession := some "U2", locus_tag := ["L1"],
         kegg_accession := ["y:L1"] }] {}).map
      (fun st => dictGet st.locus_tag_to_kegg_accession "L1") =
        .ok (some (some "y:L1")) ∧
    exceptIsOk (reconcile
      [{ uniprot_accession := some "U1", locus_tag := ["L1"],
         kegg_accession := ["x:L1"] },
       { uniprot_accession := some "U2", locus_tag := ["L1"],
         kegg_accession := ["y:L1"] }] [] []) = true := by
  exact ⟨by decide, by decide⟩

/-- Closed instance of the amended claim-C3 theorem: a primary stream
repeating accession `"U1"` fails with the duplicate conflict, and a pathway
row `"q:L1"` whose derived locus tag `"L1"` is already bound to `"k:L1"`
fails with the binding conflict. -/
theorem reconcile_conflict_detection_witness :
    reconcile [{ uniprot_accession := some "U1" },
      { uniprot_accession := some "U1" }] [] [] = .error .duplicateUniprot ∧
    parse_kegg [{ kegg_accession := "q:L1" }]
      { locus_tag_to_kegg_accession := [("L1", some "k:L1"), ("k:L1", some "L1")] }
      = .error .keggConflict :=
  ⟨(reconcile_conflict_detection [{ uniprot_accession := some "U1" },
      { uniprot_accession := some "U1" }] [] [] {} { kegg_accession := "q:L1" } []).1
      (by decide),
   (reconcile_conflict_detection [] [] [] { locus_tag_to_kegg_accession :=
      [("L1", some "k:L1"), ("k:L1", some "L1")] } { kegg_accession := "q:L1" } []).2.2
      (by decide) (by decide) (by decide)⟩

/-! ### Claims C4, C5, C7: graph building -/

/-- Fixture for claim C4: id-mapper rows for A, B, C, D (each a locus tag
and a pathway accession), a directed pathway chain A→B→C→D, and an empty
undirected interaction source. -/
def chainDb : Db :=
  { id_mapper :=
      [{ locus_tag := some "A", kegg_accession := some "A" },
       { locus_tag := some "B", kegg_accession := some "B" },
       { locus_tag := some "C", kegg_accession := some "C" },
       { locus_tag := some "D", kegg_accession := some "D" }],
    kegg_relations := [("A", "B"), ("B", "C"), ("C", "D")] }

/-- Claim C4: on the directed chain A→B→C→D with an empty interaction
source, building the graph from the single seed A returns exactly 1, 2 and
3 relationships at requested depths 1, 2 and 3. -/
theorem run_build_graph_chain_depths :
    (run_build_graph chainDb ["A"] 1 0).map List.length = .ok 1 ∧
    (run_build_graph chainDb ["A"] 2 0).map List.length = .ok 2 ∧
    (run_build_graph chainDb ["A"] 3 0).map List.length = .ok 3 := by
  refine ⟨by decide, by decide, by decide⟩

/-- Fixture for claim C5: two nodes known by RefSeq locus tags A and B, and
an interaction table holding both orderings (A, B) and (B, A) with the same
combined score. -/
def symmetricStringDb : Db :=
  { id_mapper :=
      [{ refseq_locus_tag := some "A" }, { refseq_locus_tag := some "B" }],
    string_interactions := [⟨"A", "B", 500⟩, ⟨"B", "A", 500⟩] }

/-- Claim C5: `Relationship` equality is determined solely by the ordered
pair of endpoint node ids — direction flag, origin tag, discovery depth and
weight play no part — and on an undirected-source fixture containing both
A→B and B→A with equal scores the returned edge set holds exactly one
relationship for that unordered pair. -/
theorem relationship_identity_endpoints_only :
    (∀ r₁ r₂ : Relationship, r₁.source_node.id = r₂.source_node.id →
      r₁.target_node.id = r₂.target_node.id → relEq r₁ r₂ = true) ∧
    (run_build_graph symmetricStringDb ["A", "B"] 1 400).map
      (fun l => l.map (fun r => (r.source_node.id, r.target_node.id)))
      = .ok [("A", "B")] := by
  refine ⟨?_, by decide⟩
  intro r₁ r₂ h1 h2
  simp [relEq, h1, h2]

/-- Closed instance of the claim-C5 theorem: two relationships sharing
endpoint ids but differing in direction, origin, depth and weight are equal
under the edge-identity relation. -/
theorem relationship_identity_endpoints_only_witness :
    relEq
      { source_node := { locus_tag := ["A"] }, target_node := { locus_tag := ["B"] },
        interaction := "pp", directed := true, source := "kegg",
        neighborhood_level := 1, weight := none }
      { source_node := { locus_tag := ["A"] }, target_node := { locus_tag := ["B"] },
        interaction := "pp", directed := false, source := "string",
        neighborhood_level := 3, weight := some 7 } = true :=
  relationship_identity_endpoints_only.1 _ _ rfl rfl

/-- Fixture for claim C7: the directed diamond A→B, A→C, B→D, C→D. -/
def diamondDb : Db :=
  { id_mapper :=
      [{ locus_tag := some "A", kegg_accession := some "A" },
       { locus_tag := some "B", kegg_accession := some "B" },
       { locus_tag := some "C", kegg_accession := some "C" },
       { locus_tag := some "D", kegg_accession := some "D" }],
    kegg_relations := [("A", "B"), ("A", "C"), ("B", "D"), ("C", "D")] }

/-- Counterexample to claim C7 as stated: after two depth iterations on the
diamond fixture the frontier that depth 3 would expand is `[B, C, D, D]` —
it contains the duplicate node D (target of two distinct depth-2 edges) and
the nodes B and C, whose only discovery happened at depth 1 < 2.  The
relationship list confirms B and C were discovered only at depth 1 and D
only at depth 2. -/
theorem build_graph_frontier_stale_and_duplicated :
    (build_graph_frontier diamondDb ["A"] 2 0).map (fun l => l.map Node.id)
      = .ok ["B", "C", "D", "D"] ∧
    (run_build_graph diamondDb ["A"] 2 0).map
      (fun l => l.map (fun r => (r.source_node.id, r.target_node.id,
        r.neighborhood_level)))
      = .ok [("A", "B", 1), ("A", "C", 1), ("B", "D", 2), ("C", "D", 2)] := by
  refine ⟨by decide, by decide⟩

/-- Claim C7 (amended): the frontier produced by one iteration of the depth
loop is the list of target nodes of *all* relationships accumulated so far —
including edges discovered at earlier depths — taken in edge-set order and
with one entry per relationship, so it may hold duplicate nodes and nodes
whose only discovery was at an earlier depth. -/
theorem graphRound_frontier_is_all_targets (db : Db) (thr : Int)
    (level : Nat) (frontier : List Node) (rels : List Relationship) :
    (graphRound db thr level frontier rels).map Prod.fst =
      (graphRound db thr level frontier rels).map
        (fun p => p.2.map (·.target_node)) := by
  unfold graphRound
  cases h1 : frontier.foldlM
      (fun rels n => add_kegg_relationships db n rels level) rels with
  | error e => rfl
  | ok rels1 =>
      cases h2 : frontier.foldlM
          (fun rels n => add_string_relationships db n thr rels level) rels1 with
      | error e =>
          simp only [bind, Except.bind, h1, h2]
          rfl
      | ok rels2 =>
          simp only [bind, Except.bind, h1, h2]
          rfl

/-! ### Claims C9, C10: reweighting -/

/-- A node with its weight field cleared: equality of the erasures states
that every field except the weight coincides. -/
def nodeEraseWeight (n : Node) : Node := { n with weight := none }

/-- Claim C9: with a valid pair of conditions the transcriptomics
reweighting pass returns the same relationship list with only node weights
rewritten — endpoints (including their ids and all non-weight fields),
direction flags, origin tags, depths and edge weights are unchanged — and
with either condition invalid for the experiment type it fails before
touching anything. -/
theorem adjust_weights_frame (db : Db) (rels : List Relationship)
    (experiment_type condition_a condition_b : String) :
    (experiment_type = "transcriptomics" →
      condition_is_valid db experiment_type condition_a = true →
      condition_is_valid db experiment_type condition_b = true →
      adjust_weights_with_expression_data db rels experiment_type
          condition_a condition_b =
        .ok (rels.map (reweightRel db condition_a condition_b)) ∧
      List.Forall₂ (fun r r' =>
        r'.interaction = r.interaction ∧ r'.directed = r.directed ∧
        r'.source = r.source ∧ r'.neighborhood_level = r.neighborhood_level ∧
        r'.weight = r.weight ∧
        nodeEraseWeight r'.source_node = nodeEraseWeight r.source_node ∧
        nodeEraseWeight r'.target_node = nodeEraseWeight r.target_node ∧
        r'.source_node.id = r.source_node.id ∧
        r'.target_node.id = r.target_node.id)
        rels (rels.map (reweightRel db condition_a condition_b))) ∧
    (condition_is_valid db experiment_type condition_a = false ∨
      condition_is_valid db experiment_type condition_b = false →
      adjust_weights_with_expression_data db rels experiment_type
        condition_a condition_b = .error ()) := by
  constructor
  · rintro rfl ha hb
    constructor
    · unfold adjust_weights_with_expression_data
      rw [if_neg (by simp [ha]), if_neg (by simp [hb]), if_pos rfl]
    · rw [List.forall₂_map_right_iff]
      rw [List.forall₂_same]
      intro r hr
      cases r with
      | mk sn tn i d s l w =>
          cases sn
          cases tn
          exact ⟨rfl, rfl, rfl, rfl, rfl, rfl, rfl, rfl, rfl⟩
  · intro hinvalid
    unfold adjust_weights_with_expression_data
    rcases hinvalid with h | h
    · rw [if_pos (by simp [h])]
    · by_cases hA : condition_is_valid db experiment_type condition_a = true
      · rw [if_neg (by simp [hA]), if_pos (by simp [h])]
      · rw [if_pos (by simpa using hA)]

/-- Closed instance of the claim-C9 theorem: with both conditions
registered for transcriptomics the pass returns the (empty) list unchanged,
and with an unregistered condition it fails. -/
theorem adjust_weights_frame_witness :
    adjust_weights_with_expression_data
      { experimental_conditions :=
          [("transcriptomics", "c1"), ("transcriptomics", "c2")] }
      [] "transcriptomics" "c1" "c2" = .ok [] ∧
    adjust_weights_with_expression_data
      { experimental_conditions :=
          [("transcriptomics", "c1"), ("transcriptomics", "c2")] }
      [] "transcriptomics" "bad" "c2" = .error () :=
  ⟨((adjust_weights_frame
      { experimental_conditions :=
          [("transcriptomics", "c1"), ("transcriptomics", "c2")] }
      [] "transcriptomics" "c1" "c2").1 rfl (by decide) (by decide)).1,
   (adjust_weights_frame
      { experimental_conditions :=
          [("transcriptomics", "c1"), ("transcriptomics", "c2")] }
      [] "transcriptomics" "bad" "c2").2 (Or.inl (by decide))⟩

/-- Claim C10: a fold-change value of exactly 0 returned by the
expression-value lookup is treated as absent — when every lookup for the
node's locus tags and RefSeq locus tags returns exactly 0, the computed
node weight is `none`, because each value passes through a Python
truthiness check before the largest-absolute-magnitude selection. -/
theorem get_transcriptomics_weight_zero_is_absent (db : Db) (node : Node)
    (condition_a condition_b : String)
    (h : ∀ tag, tag ∈ node.locus_tag ∨ tag ∈ node.refseq_locus_tag →
      get_log2_fold_change db tag condition_a condition_b = some 0) :
    get_transcriptomics_weight db node condition_a condition_b = none := by
  unfold get_transcriptomics_weight
  have h1 : node.locus_tag.filterMap (fun lt =>
      match get_log2_fold_change db lt condition_a condition_b with
      | some w => if w ≠ 0 then some w else none
      | none => none) = [] := by
    rw [List.filterMap_eq_nil]
    intro lt hlt
    rw [h lt (Or.inl hlt)]
    simp
  have h2 : node.refseq_locus_tag.filterMap (fun rs =>
      match get_log2_fold_change db rs condition_a condition_b with
      | some w => if w ≠ 0 then some w else none
      | none => none) = [] := by
    rw [List.filterMap_eq_nil]
    intro rs hrs
    rw [h rs (Or.inr hrs)]
    simp
  rw [h1, h2]
  rfl

/-- Closed instance of the claim-C10 theorem: a node whose only tag has a
stored fold change of exactly 0 gets weight `none`. -/
theorem get_transcriptomics_weight_zero_is_absent_witness :
    get_transcriptomics_weight
      { transcriptomics := [("L1", "c1", "c2", 0)] }
      { locus_tag := ["L1"], refseq_locus_tag := ["L1"] } "c1" "c2" = none := by
  refine get_transcriptomics_weight_zero_is_absent _ _ _ _ ?_
  intro tag htag
  have heq : tag = "L1" := by
    rcases htag with h | h <;> simpa using h
  rw [heq]
  decide

end Xarxa
